import Mathlib

/-!
Verification of the SSH MAC layer of proftpd mod_proxy
(src/lib/proxy/ssh/mac.c), as a shallow embedding.

Byte buffers are modelled as `List Nat` (each element a byte value).
The opaque cryptographic primitives (the KEX hash used by the key
derivation, HMAC and UMAC) are out of scope of the code and are passed
in as abstract functions carrying only an output-length law, exactly
as mac.c consumes them.

The process-wide static state of mac.c (two read MAC slots, two write
MAC slots, the HMAC/UMAC contexts, the block-size array and the two
active indices) is modelled as an explicit `MacState` record threaded
through the operations.  A ghost field `freed_keys` records the
contents of every key buffer at the moment it is freed, so that
key-hygiene properties ("the buffer was zeroed before release") are
expressible.
-/

/-- Big-endian 4-byte encoding of a 32-bit value, as written by
`proxy_ssh_msg_write_int`. -/
def u32be (v : Nat) : List Nat :=
  [v / 2 ^ 24 % 256, v / 2 ^ 16 % 256, v / 2 ^ 8 % 256, v % 256]

/-- Big-endian 8-byte encoding of a 64-bit value, as written by
`proxy_ssh_msg_write_long`. -/
def u64be (v : Nat) : List Nat :=
  [v / 2 ^ 56 % 256, v / 2 ^ 48 % 256, v / 2 ^ 40 % 256, v / 2 ^ 32 % 256,
   v / 2 ^ 24 % 256, v / 2 ^ 16 % 256, v / 2 ^ 8 % 256, v % 256]

/-- Modelled from the spec: `proxy_ssh_msg_write_int` lives in msg.c, which
is not under src/; the spec (section 4.4) fixes its encoding as 4 bytes
big-endian.  Each writer takes the buffer written so far and the remaining
room (the C `buf`/`buflen` pointer pair) and appends only when the buffer
has room, else writes nothing. -/
def msg_write_int (buf : List Nat) (buflen : Nat) (v : Nat) :
    List Nat × Nat :=
  if 4 ≤ buflen then (buf ++ u32be v, buflen - 4) else (buf, buflen)

/-- Modelled from the spec: `proxy_ssh_msg_write_byte` lives in msg.c, which
is not under src/; the spec fixes it as a single byte. -/
def msg_write_byte (buf : List Nat) (buflen : Nat) (v : Nat) :
    List Nat × Nat :=
  if 1 ≤ buflen then (buf ++ [v % 256], buflen - 1) else (buf, buflen)

/-- Modelled from the spec: `proxy_ssh_msg_write_data` (raw form, no length
prefix) lives in msg.c, which is not under src/; it copies the given bytes
verbatim. -/
def msg_write_data (buf : List Nat) (buflen : Nat) (d : List Nat) :
    List Nat × Nat :=
  if d.length ≤ buflen then (buf ++ d, buflen - d.length) else (buf, buflen)

/-- Modelled from the spec: `proxy_ssh_msg_write_long` lives in msg.c, which
is not under src/; the spec (section 4.4) fixes the UMAC nonce as 8 bytes
big-endian. -/
def msg_write_long (buf : List Nat) (buflen : Nat) (v : Nat) :
    List Nat × Nat :=
  if 8 ≤ buflen then (buf ++ u64be v, buflen - 8) else (buf, buflen)

/-- Structural description of an EVP digest: native output size
(`EVP_MD_size`) and input block size (`EVP_MD_block_size`). -/
structure DigestDesc where
  mdSize : Nat
  blockSize : Nat
deriving DecidableEq

def sha1_desc : DigestDesc := ⟨20, 64⟩
def sha256_desc : DigestDesc := ⟨32, 64⟩
def md5_desc : DigestDesc := ⟨16, 64⟩
/-- The custom EVP_MD that crypto.c registers for UMAC-64: 8-byte output,
16-byte (AES key sized) block. -/
def umac64_desc : DigestDesc := ⟨8, 16⟩
/-- The custom EVP_MD that crypto.c registers for UMAC-128. -/
def umac128_desc : DigestDesc := ⟨16, 16⟩
/-- EVP_md_null: zero output size. -/
def null_desc : DigestDesc := ⟨0, 0⟩

/-- Modelled from the spec: `proxy_ssh_crypto_get_digest` lives in crypto.c,
which is not under src/.  Per spec section 4.1 the catalog resolves an exact
algorithm name to a digest plus an optional truncated tag length (0 = no
truncation): the reserved UMAC identifiers map to the fixed-output UMAC
primitives and are not subject to truncation, a numeric `-96` suffix maps to
a 12-byte truncated tag, `none` maps to the null digest and any other name
is rejected. -/
def proxy_ssh_crypto_get_digest (algo : String) : Option (DigestDesc × Nat) :=
  if algo = "hmac-sha1" then some (sha1_desc, 0)
  else if algo = "hmac-sha1-96" then some (sha1_desc, 12)
  else if algo = "hmac-sha2-256" then some (sha256_desc, 0)
  else if algo = "hmac-md5" then some (md5_desc, 0)
  else if algo = "hmac-md5-96" then some (md5_desc, 12)
  else if algo = "umac-64@openssh.com" then some (umac64_desc, 0)
  else if algo = "umac-128@openssh.com" then some (umac128_desc, 0)
  else if algo = "none" then some (null_desc, 0)
  else none

/-- Modelled from the spec: `proxy_ssh_crypto_get_size` lives in crypto.c,
which is not under src/.  It is called as `get_size(block_size(mac digest),
md_size(kex hash))` to size the derived-key buffer so that it covers both
quantities, i.e. it returns the maximum of its arguments. -/
def proxy_ssh_crypto_get_size (a b : Nat) : Nat := max a b

/-- An abstract keyed-hash-free digest primitive (the KEX hash handed to
`set_mac_key`): an output length and the hash function itself, with the
length law every EVP digest satisfies. -/
structure HashFn where
  outLen : Nat
  app : List Nat → List Nat
  len_eq : ∀ m, (app m).length = outLen

/-- The iterative-extension loop of `set_mac_key` (mac.c lines 555-644):
while the accumulated key material is shorter than `key_sz`, append
`HASH(K || H || accumulated)`.  The C loop needs no fuel; here `fuel`
bounds the iteration count and `fuel = key_sz` is always enough, since
each round appends at least one byte whenever the digest has positive
output length (the only case in which the C loop terminates at all). -/
def kdfExtend (md : HashFn) (k h : List Nat) (key_sz : Nat) :
    Nat → List Nat → List Nat
  | 0, acc => acc
  | fuel + 1, acc =>
      if key_sz ≤ acc.length then acc
      else kdfExtend md k h key_sz fuel (acc ++ md.app (k ++ h ++ acc))

/-- The full key material accumulated by `set_mac_key` for a requested
size `key_sz`: the initial block `HASH(K || H || letter || session_id)`
followed by the extension loop. -/
def set_mac_key_kdf (md : HashFn) (k h : List Nat) (letter : Nat)
    (id : List Nat) (key_sz : Nat) : List Nat :=
  kdfExtend md k h key_sz key_sz (md.app (k ++ h ++ [letter] ++ id))

/-- Claim-side definition (RFC 4253 section 7.2, as worded in the spec):
`kdfAcc n` is the concatenation `K1 || K2 || ... || K(n+1)` where
`K1 = HASH(K || H || letter || session_id)` and
`K(i+1) = HASH(K || H || K1 || ... || Ki)`. -/
def kdfAcc (md : HashFn) (k h : List Nat) (letter : Nat) (id : List Nat) :
    Nat → List Nat
  | 0 => md.app (k ++ h ++ [letter] ++ id)
  | n + 1 =>
      kdfAcc md k h letter id n ++
        md.app (k ++ h ++ kdfAcc md k h letter id n)

/-- The opaque keyed MAC primitives consumed by get_mac, with their fixed
output lengths: an HMAC engine (whose output length is the digest size) and
the two UMAC engines (8- and 16-byte tags). -/
structure Prims where
  hmac : DigestDesc → List Nat → List Nat → List Nat
  umac64 : List Nat → List Nat → List Nat → List Nat
  umac128 : List Nat → List Nat → List Nat → List Nat
  hmac_len : ∀ d k m, (hmac d k m).length = d.mdSize
  umac64_len : ∀ k m n, (umac64 k m n).length = 8
  umac128_len : ∀ k m n, (umac128 k m n).length = 16

/-- struct proxy_ssh_mac (mac.c lines 41-56), minus the pool pointer.
`algo_type` uses the C constants: 1 = HMAC, 2 = UMAC64, 3 = UMAC128,
0 = never set.  `key = none` models a NULL key pointer; `some b` models an
allocated buffer holding bytes `b`. -/
structure ProxySshMac where
  algo : Option String
  algo_type : Nat
  digest : Option DigestDesc
  key : Option (List Nat)
  keysz : Nat
  key_len : Nat
  mac_len : Nat
deriving DecidableEq

/-- struct proxy_ssh_packet, restricted to the fields get_mac reads and
writes.  `mac` holds the received tag bytes on the read path and the
computed tag after a successful get_mac. -/
structure Packet where
  seqno : Nat
  packet_len : Nat
  padding_len : Nat
  payload : List Nat
  padding : List Nat
  mac : List Nat
  mac_len : Nat
deriving DecidableEq

/-- EVP_MAX_MD_SIZE: get_mac allocates its digest scratch buffer
(zero-filled by pcalloc) at this size. -/
def evpMaxMdSize : Nat := 64

/-- Byte-wise comparison with short-circuit on the first mismatch, the
behavioural model of the `memcmp` call in get_mac (mac.c line 345):
`.2` is the equality verdict (memcmp == 0) and `.1` the number of byte
comparisons performed before stopping, the quantity a timing observer
sees. -/
def memcmpStop : List Nat → List Nat → Nat × Bool
  | [], [] => (0, true)
  | _ :: _, [] => (0, false)
  | [], _ :: _ => (0, false)
  | x :: xs, y :: ys =>
      if x = y then ((memcmpStop xs ys).1 + 1, (memcmpStop xs ys).2)
      else (1, false)

/-- The authenticated buffer get_mac builds for the HMAC family (mac.c
lines 239-253): `seqno(4) || packet_len(4) || padding_len(1) || payload ||
padding` written into a buffer of `2*4 + packet_len + 64` bytes. -/
def hmac_buf (pkt : Packet) : List Nat × Nat :=
  let w1 := msg_write_int [] (4 * 2 + pkt.packet_len + 64) pkt.seqno
  let w2 := msg_write_int w1.1 w1.2 pkt.packet_len
  let w3 := msg_write_byte w2.1 w2.2 pkt.padding_len
  let w4 := msg_write_data w3.1 w3.2 pkt.payload
  msg_write_data w4.1 w4.2 pkt.padding

/-- The authenticated buffer get_mac builds for the UMAC family (mac.c
lines 296-308): `packet_len(4) || padding_len(1) || payload || padding`,
no sequence number, in a buffer of `4 + packet_len + 64` bytes. -/
def umac_buf (pkt : Packet) : List Nat × Nat :=
  let w1 := msg_write_int [] (4 + pkt.packet_len + 64) pkt.packet_len
  let w2 := msg_write_byte w1.1 w1.2 pkt.padding_len
  let w3 := msg_write_data w2.1 w2.2 pkt.payload
  msg_write_data w3.1 w3.2 pkt.padding

/-- get_mac (mac.c lines 233-411).  `hctx` is the keyed state of the slot's
HMAC context (key bytes and digest installed by init_mac), `uctx` the UMAC
context pointer (`none` = NULL) with its keyed state.  Returns `none` for a
-1 return (zero-length digest, or read-path MAC mismatch) and the updated
packet otherwise.  The flags argument of the C function is `isRead`. -/
def get_mac (P : Prims) (mac : ProxySshMac)
    (hctx : Option (List Nat × DigestDesc)) (uctx : Option (Option (List Nat)))
    (pkt : Packet) (isRead : Bool) : Option Packet :=
  let core : List Nat × Nat :=
    if mac.algo_type = 1 then
      let kd := hctx.getD ([], null_desc)
      let dg := P.hmac kd.2 kd.1 (hmac_buf pkt).1
      (dg, dg.length)
    else if mac.algo_type = 2 then
      (P.umac64 ((uctx.getD none).getD []) (umac_buf pkt).1
        (msg_write_long [] 8 pkt.seqno).1, 8)
    else if mac.algo_type = 3 then
      (P.umac128 ((uctx.getD none).getD []) (umac_buf pkt).1
        (msg_write_long [] 8 pkt.seqno).1, 16)
    else ([], 0)
  if core.2 = 0 then none
  else
    let mac_data := core.1 ++ List.replicate (evpMaxMdSize - core.1.length) 0
    let mlen := if mac.mac_len ≠ 0 then mac.mac_len else core.2
    if isRead then
      if (memcmpStop (List.take mlen mac_data) (List.take mlen pkt.mac)).2 then
        some { pkt with mac := List.take mlen mac_data, mac_len := mlen }
      else none
    else
      some { pkt with mac := List.take mlen mac_data, mac_len := mlen }

/-- Select one element of a two-element static array by index (false = 0,
true = 1). -/
def sel (i : Bool) (p : α × α) : α := if i then p.2 else p.1

/-- Update one element of a two-element static array. -/
def upd (i : Bool) (p : α × α) (x : α) : α × α :=
  if i then (p.1, x) else (x, p.2)

/-- The keyed state of one HMAC context slot: `none` models a freed /
never-allocated HMAC_CTX pointer, `some none` an allocated but unkeyed
(reset) context and `some (some (key, digest))` a context keyed by
HMAC_Init_ex with those key bytes and digest. -/
abbrev HmacCtx := Option (Option (List Nat × DigestDesc))

/-- The state of one UMAC context slot: `none` models a NULL pointer,
`some none` an allocated but unkeyed context and `some (some key)` a
context keyed by umac_init with those key bytes. -/
abbrev UmacCtx := Option (Option (List Nat))

/-- The process-wide static state of mac.c: `read_macs`/`write_macs`
(lines 71-83), the HMAC and UMAC context arrays, `mac_blockszs` (line 85)
and the two active indices (lines 87-88).  `freed_keys` is a ghost log of
the contents of every key buffer at the moment free() ran on it. -/
structure MacState where
  read_macs : ProxySshMac × ProxySshMac
  write_macs : ProxySshMac × ProxySshMac
  hmac_read_ctxs : HmacCtx × HmacCtx
  hmac_write_ctxs : HmacCtx × HmacCtx
  umac_read_ctxs : UmacCtx × UmacCtx
  umac_write_ctxs : UmacCtx × UmacCtx
  mac_blockszs : Nat × Nat
  read_mac_idx : Bool
  write_mac_idx : Bool
  freed_keys : List (List Nat)
deriving DecidableEq

/-- A static proxy_ssh_mac slot as initialized at load time (lines 71-83):
all fields NULL / zero. -/
def emptyMac : ProxySshMac :=
  { algo := none, algo_type := 0, digest := none, key := none,
    keysz := 0, key_len := 0, mac_len := 0 }

/-- pr_memscrub: zero the first `n` bytes of a buffer. -/
def pr_memscrub (b : List Nat) (n : Nat) : List Nat :=
  List.replicate (min n b.length) 0 ++ List.drop n b

/-- clear_mac (mac.c lines 170-181): if the slot holds a key, scrub the
buffer (keysz bytes), free it and zero the length fields; in every case
drop the digest and algorithm name.  The second component is the ghost
record of the freed buffer's contents (scrubbed before free). -/
def clear_mac (m : ProxySshMac) : ProxySshMac × List (List Nat) :=
  match m.key with
  | some b =>
      ({ m with key := none, keysz := 0, key_len := 0,
                digest := none, algo := none },
       [pr_memscrub b m.keysz])
  | none => ({ m with digest := none, algo := none }, [])

/-- switch_read_mac (mac.c lines 108-138): if the currently indexed read
slot still holds a key (the generation being retired), clear it, reset its
HMAC context, reset its UMAC context when it is a UMAC slot, zero its
block-size entry and flip the read index.  Otherwise do nothing. -/
def switch_read_mac (st : MacState) : MacState :=
  let i := st.read_mac_idx
  let m := sel i st.read_macs
  match m.key with
  | none => st
  | some _ =>
      let c := clear_mac m
      { st with
        read_macs := upd i st.read_macs c.1,
        freed_keys := st.freed_keys ++ c.2,
        hmac_read_ctxs := upd i st.hmac_read_ctxs (some none),
        umac_read_ctxs :=
          if m.algo_type = 2 ∨ m.algo_type = 3 then
            upd i st.umac_read_ctxs ((sel i st.umac_read_ctxs).map (fun _ => none))
          else st.umac_read_ctxs,
        mac_blockszs := upd i st.mac_blockszs 0,
        read_mac_idx := !i }

/-- switch_write_mac (mac.c lines 140-168): like switch_read_mac but for
the write direction, and without the block-size reset. -/
def switch_write_mac (st : MacState) : MacState :=
  let i := st.write_mac_idx
  let m := sel i st.write_macs
  match m.key with
  | none => st
  | some _ =>
      let c := clear_mac m
      { st with
        write_macs := upd i st.write_macs c.1,
        freed_keys := st.freed_keys ++ c.2,
        hmac_write_ctxs := upd i st.hmac_write_ctxs (some none),
        umac_write_ctxs :=
          if m.algo_type = 2 ∨ m.algo_type = 3 then
            upd i st.umac_write_ctxs ((sel i st.umac_write_ctxs).map (fun _ => none))
          else st.umac_write_ctxs,
        write_mac_idx := !i }

/-- init_mac (mac.c lines 183-231): a no-op for algorithm `none`; otherwise
reset the HMAC context and re-key whichever context family the slot uses
(the HMAC context with `key_len` key bytes and the slot's digest, or the
UMAC context with the key buffer). -/
def init_mac (m : ProxySshMac) (hctx : HmacCtx) (uctx : UmacCtx) :
    HmacCtx × UmacCtx :=
  if m.algo = some "none" then (hctx, uctx)
  else
    let hctx := hctx.map (fun _ => none)
    if m.algo_type = 1 then
      (hctx.map (fun _ =>
        some (List.take m.key_len (m.key.getD []), m.digest.getD null_desc)), uctx)
    else if m.algo_type = 2 ∨ m.algo_type = 3 then
      (hctx, uctx.map (fun _ => some (m.key.getD [])))
    else (hctx, uctx)

/-- set_mac_key (mac.c lines 413-667): derive the MAC key.  The buffer size
is `get_size(block_size(mac digest), md_size(kex hash))`; a zero size
leaves the slot untouched (the "none" early return, or the error return
whose result the callers ignore).  Otherwise the slot receives the first
`key_sz` bytes of the RFC 4253 iterative derivation, and `key_len` becomes
the MAC digest's output size (HMAC) or block size (UMAC), clamped to 16
when the peer lacks the long-MAC-keys interop feature. -/
def set_mac_key (md : HashFn) (k h : List Nat) (letter : Nat)
    (id : List Nat) (supports_mac_len : Bool) (m : ProxySshMac) :
    ProxySshMac :=
  let d := m.digest.getD null_desc
  let key_sz := proxy_ssh_crypto_get_size d.blockSize md.outLen
  if key_sz = 0 then m
  else
    let key := List.take key_sz (set_mac_key_kdf md k h letter id key_sz)
    let kl :=
      if m.algo_type = 1 then d.mdSize
      else if m.algo_type = 2 ∨ m.algo_type = 3 then d.blockSize
      else m.key_len
    let kl := if supports_mac_len then kl else 16
    { m with key := some key, keysz := key_sz, key_len := kl }

/-- proxy_ssh_mac_get_block_size (mac.c lines 669-671). -/
def proxy_ssh_mac_get_block_size (st : MacState) : Nat :=
  sel st.read_mac_idx st.mac_blockszs

/-- proxy_ssh_mac_set_block_size (mac.c lines 673-677): raise the entry at
the current read index, never lower it. -/
def proxy_ssh_mac_set_block_size (b : Nat) (st : MacState) : MacState :=
  if sel st.read_mac_idx st.mac_blockszs < b then
    { st with mac_blockszs := upd st.read_mac_idx st.mac_blockszs b }
  else st

/-- proxy_ssh_mac_set_read_algo (mac.c lines 688-743): target the other
slot when the active one is keyed (rekey in flight), delete any stale UMAC
context at the target, resolve the algorithm (failure = `none`), store the
name, family type and truncated tag length, and allocate a fresh UMAC
context for UMAC algorithms. -/
def proxy_ssh_mac_set_read_algo (algo : String) (st : MacState) :
    Option MacState :=
  let idx := if (sel st.read_mac_idx st.read_macs).key ≠ none then
      !st.read_mac_idx else st.read_mac_idx
  let st1 :=
    if (sel idx st.umac_read_ctxs) ≠ none ∧
        ((sel idx st.read_macs).algo_type = 2 ∨
         (sel idx st.read_macs).algo_type = 3) then
      { st with umac_read_ctxs := upd idx st.umac_read_ctxs none }
    else st
  match proxy_ssh_crypto_get_digest algo with
  | none => none
  | some dm =>
      let m := sel idx st1.read_macs
      let aty :=
        if algo = "umac-64@openssh.com" then 2
        else if algo = "umac-128@openssh.com" then 3
        else 1
      let st2 :=
        if algo = "umac-64@openssh.com" ∨ algo = "umac-128@openssh.com" then
          { st1 with umac_read_ctxs := upd idx st1.umac_read_ctxs (some none) }
        else st1
      some { st2 with
        read_macs := upd idx st2.read_macs
          { m with digest := some dm.1, algo := some algo,
                   algo_type := aty, mac_len := dm.2 } }

/-- proxy_ssh_mac_set_write_algo (mac.c lines 825-880): the write-direction
twin of set_read_algo. -/
def proxy_ssh_mac_set_write_algo (algo : String) (st : MacState) :
    Option MacState :=
  let idx := if (sel st.write_mac_idx st.write_macs).key ≠ none then
      !st.write_mac_idx else st.write_mac_idx
  let st1 :=
    if (sel idx st.umac_write_ctxs) ≠ none ∧
        ((sel idx st.write_macs).algo_type = 2 ∨
         (sel idx st.write_macs).algo_type = 3) then
      { st with umac_write_ctxs := upd idx st.umac_write_ctxs none }
    else st
  match proxy_ssh_crypto_get_digest algo with
  | none => none
  | some dm =>
      let m := sel idx st1.write_macs
      let aty :=
        if algo = "umac-64@openssh.com" then 2
        else if algo = "umac-128@openssh.com" then 3
        else 1
      let st2 :=
        if algo = "umac-64@openssh.com" ∨ algo = "umac-128@openssh.com" then
          { st1 with umac_write_ctxs := upd idx st1.umac_write_ctxs (some none) }
        else st1
      some { st2 with
        write_macs := upd idx st2.write_macs
          { m with digest := some dm.1, algo := some algo,
                   algo_type := aty, mac_len := dm.2 } }

/-- SSH role of this side, deciding the RFC 4253 direction letters. -/
inductive SshRole
  | client
  | server
deriving DecidableEq

/-- proxy_ssh_mac_set_read_key (mac.c lines 745-790): retire the old
generation (switch_read_mac), derive the key into the now-active slot with
letter 'F' (70) as client / 'E' (69) as server, re-key the slot's
primitive contexts via init_mac and record the block size. -/
def proxy_ssh_mac_set_read_key (md : HashFn) (k h : List Nat)
    (id : List Nat) (role : SshRole) (supports_mac_len : Bool)
    (st : MacState) : MacState :=
  let st := switch_read_mac st
  let i := st.read_mac_idx
  let letter : Nat := if role = SshRole.client then 70 else 69
  let m := set_mac_key md k h letter id supports_mac_len (sel i st.read_macs)
  let ctxs := init_mac m (sel i st.hmac_read_ctxs) (sel i st.umac_read_ctxs)
  let st := { st with
    read_macs := upd i st.read_macs m,
    hmac_read_ctxs := upd i st.hmac_read_ctxs ctxs.1,
    umac_read_ctxs := upd i st.umac_read_ctxs ctxs.2 }
  let blocksz :=
    if m.mac_len = 0 then (m.digest.getD null_desc).mdSize else m.mac_len
  proxy_ssh_mac_set_block_size blocksz st

/-- proxy_ssh_mac_set_write_key (mac.c lines 882-918): the write twin,
with the letter pair swapped ('E' as client, 'F' as server) and no
block-size bookkeeping. -/
def proxy_ssh_mac_set_write_key (md : HashFn) (k h : List Nat)
    (id : List Nat) (role : SshRole) (supports_mac_len : Bool)
    (st : MacState) : MacState :=
  let st := switch_write_mac st
  let i := st.write_mac_idx
  let letter : Nat := if role = SshRole.client then 69 else 70
  let m := set_mac_key md k h letter id supports_mac_len (sel i st.write_macs)
  let ctxs := init_mac m (sel i st.hmac_write_ctxs) (sel i st.umac_write_ctxs)
  { st with
    write_macs := upd i st.write_macs m,
    hmac_write_ctxs := upd i st.hmac_write_ctxs ctxs.1,
    umac_write_ctxs := upd i st.umac_write_ctxs ctxs.2 }

/-- proxy_ssh_mac_read_data (mac.c lines 792-815): with no key installed in
the active read slot, succeed with an empty tag; otherwise verify via
get_mac with the read flag. -/
def proxy_ssh_mac_read_data (P : Prims) (st : MacState) (pkt : Packet) :
    Option Packet :=
  let m := sel st.read_mac_idx st.read_macs
  if m.key = none then some { pkt with mac := [], mac_len := 0 }
  else
    get_mac P m ((sel st.read_mac_idx st.hmac_read_ctxs).getD none)
      (sel st.read_mac_idx st.umac_read_ctxs) pkt true

/-- proxy_ssh_mac_write_data (mac.c lines 920-943): with no key installed
in the active write slot, succeed with an empty tag; otherwise compute via
get_mac with the write flag. -/
def proxy_ssh_mac_write_data (P : Prims) (st : MacState) (pkt : Packet) :
    Option Packet :=
  let m := sel st.write_mac_idx st.write_macs
  if m.key = none then some { pkt with mac := [], mac_len := 0 }
  else
    get_mac P m ((sel st.write_mac_idx st.hmac_write_ctxs).getD none)
      (sel st.write_mac_idx st.umac_write_ctxs) pkt false

/-- proxy_ssh_mac_init (mac.c lines 955-975): allocate the four HMAC
contexts, NULL the four UMAC context pointers.  The MAC slots themselves
are the load-time statics. -/
def proxy_ssh_mac_init : MacState :=
  { read_macs := (emptyMac, emptyMac),
    write_macs := (emptyMac, emptyMac),
    hmac_read_ctxs := (some none, some none),
    hmac_write_ctxs := (some none, some none),
    umac_read_ctxs := (none, none),
    umac_write_ctxs := (none, none),
    mac_blockszs := (0, 0),
    read_mac_idx := false,
    write_mac_idx := false,
    freed_keys := [] }

/-- proxy_ssh_mac_free (mac.c lines 977-986): free the four HMAC contexts.
Nothing else is touched: no slot key is scrubbed or released and the
block-size array keeps its values. -/
def proxy_ssh_mac_free (st : MacState) : MacState :=
  { st with hmac_read_ctxs := (none, none), hmac_write_ctxs := (none, none) }

/-- A concrete 2-byte digest used to drive the state machine on concrete
runs (checking the theorems at explicit inputs). -/
def tHash : HashFn := ⟨2, fun _ => [3, 7], fun _ => rfl⟩

/-- A second concrete digest, 4-byte output. -/
def tHash2 : HashFn := ⟨4, fun _ => [1, 2, 3, 4], fun _ => rfl⟩

/-- Concrete MAC primitives for evaluating the embedding on explicit
inputs: each returns a constant tag of the right length. -/
def tPrims : Prims where
  hmac := fun d _ _ => List.replicate d.mdSize 1
  umac64 := fun _ _ _ => List.replicate 8 2
  umac128 := fun _ _ _ => List.replicate 16 2
  hmac_len := fun d _ _ => List.length_replicate d.mdSize 1
  umac64_len := fun _ _ _ => List.length_replicate 8 2
  umac128_len := fun _ _ _ => List.length_replicate 16 2

/-- A keyed hmac-sha2-256 slot (no truncation), key bytes all 5. -/
def hmacMacSlot : ProxySshMac :=
  { algo := some "hmac-sha2-256", algo_type := 1, digest := some sha256_desc,
    key := some (List.replicate 32 5), keysz := 32, key_len := 32,
    mac_len := 0 }

/-- A keyed umac-64 slot, key bytes all 4. -/
def umacMacSlot : ProxySshMac :=
  { algo := some "umac-64@openssh.com", algo_type := 2,
    digest := some umac64_desc, key := some (List.replicate 16 4),
    keysz := 16, key_len := 16, mac_len := 0 }

/-- A keyed umac-128 slot, key bytes all 4. -/
def umac128MacSlot : ProxySshMac :=
  { algo := some "umac-128@openssh.com", algo_type := 3,
    digest := some umac128_desc, key := some (List.replicate 16 4),
    keysz := 16, key_len := 16, mac_len := 0 }

/-- A session state whose active read slot is the keyed HMAC slot. -/
def stHmacRead : MacState :=
  { proxy_ssh_mac_init with
    read_macs := (hmacMacSlot, emptyMac),
    hmac_read_ctxs := (some (some (List.replicate 32 5, sha256_desc)), some none) }

/-- A session state whose active write slot is the keyed HMAC slot. -/
def stHmacWrite : MacState :=
  { proxy_ssh_mac_init with
    write_macs := (hmacMacSlot, emptyMac),
    hmac_write_ctxs := (some (some (List.replicate 32 5, sha256_desc)), some none) }

/-- A session state whose active read slot is the keyed UMAC-64 slot. -/
def stUmacRead : MacState :=
  { proxy_ssh_mac_init with
    read_macs := (umacMacSlot, emptyMac),
    umac_read_ctxs := (some (some (List.replicate 16 4)), none) }

/-- A session state whose active write slot is the keyed UMAC-64 slot. -/
def stUmacWrite : MacState :=
  { proxy_ssh_mac_init with
    write_macs := (umacMacSlot, emptyMac),
    umac_write_ctxs := (some (some (List.replicate 16 4)), none) }

/-- A session state whose active write slot is the keyed UMAC-128 slot. -/
def stUmac128Write : MacState :=
  { proxy_ssh_mac_init with
    write_macs := (umac128MacSlot, emptyMac),
    umac_write_ctxs := (some (some (List.replicate 16 4)), none) }

/-- A small well-formed packet (packet_len = padding_len + payload + padding
lengths as on the wire). -/
def pktBase : Packet :=
  { seqno := 1, packet_len := 3, padding_len := 1, payload := [9],
    padding := [0], mac := [], mac_len := 0 }

/-- pktBase carrying a received tag that differs from the computed HMAC tag
(under tPrims: 32 bytes of 1) in its first byte. -/
def pktMismFirst : Packet :=
  { pktBase with mac := 0 :: List.replicate 31 1, mac_len := 32 }

/-- pktBase carrying a received tag that differs from the computed HMAC tag
only in its last byte. -/
def pktMismLast : Packet :=
  { pktBase with mac := List.replicate 31 1 ++ [0], mac_len := 32 }

/-- pktBase carrying a 9-byte received tag: the 8 computed UMAC-64 tag
bytes (under tPrims: 2s) followed by a trailing junk byte. -/
def pktLongTag : Packet :=
  { pktBase with mac := List.replicate 8 2 ++ [171], mac_len := 9 }

/-- State after the first full read-direction keying of a session:
init, set_read_algo hmac-sha2-256, set_read_key (role client). -/
def stRekeyed1 : MacState :=
  proxy_ssh_mac_set_read_key tHash [5] [6] [7] SshRole.client true
    ((proxy_ssh_mac_set_read_algo "hmac-sha2-256" proxy_ssh_mac_init).getD
      proxy_ssh_mac_init)

/-- stRekeyed1 after a rekey to umac-64: set_read_algo, set_read_key. -/
def stRekeyed2 : MacState :=
  proxy_ssh_mac_set_read_key tHash2 [8] [9] [7] SshRole.client true
    ((proxy_ssh_mac_set_read_algo "umac-64@openssh.com" stRekeyed1).getD
      stRekeyed1)

/-- stRekeyed1 torn down by proxy_ssh_mac_free. -/
def stTornDown : MacState := proxy_ssh_mac_free stRekeyed1

/-- Write-direction first keying: init, set_write_algo hmac-sha2-256,
set_write_key (role client). -/
def stWKeyed1 : MacState :=
  proxy_ssh_mac_set_write_key tHash [5] [6] [7] SshRole.client true
    ((proxy_ssh_mac_set_write_algo "hmac-sha2-256" proxy_ssh_mac_init).getD
      proxy_ssh_mac_init)

/-- stWKeyed1 with the rekey algorithm umac-64 prepared (set_write_algo
only, matching set_write_key not yet issued). -/
def stWPrepared : MacState :=
  (proxy_ssh_mac_set_write_algo "umac-64@openssh.com" stWKeyed1).getD stWKeyed1

/-- Read-direction state with the rekey algorithm prepared but not keyed:
stRekeyed1 after set_read_algo umac-64 only. -/
def stRPrepared : MacState :=
  (proxy_ssh_mac_set_read_algo "umac-64@openssh.com" stRekeyed1).getD stRekeyed1

/-- stWPrepared after the matching set_write_key: the write direction fully
rekeyed from hmac-sha2-256 to umac-64. -/
def stWRekeyed2 : MacState :=
  proxy_ssh_mac_set_write_key tHash2 [8] [9] [7] SshRole.client true
    stWPrepared

/-- The key installed in the write direction by the first keying of
stWKeyed1 (letter 'E' = 69, the client write letter). -/
def wKey1 : List Nat :=
  List.take 64 (set_mac_key_kdf tHash [5] [6] 69 [7] 64)

/-- The key installed in the read direction by the first keying of
stRekeyed1 (letter 'F' = 70, the client read letter). -/
def rKey1 : List Nat :=
  List.take 64 (set_mac_key_kdf tHash [5] [6] 70 [7] 64)

theorem kdfAcc_length (md : HashFn) (k h : List Nat) (letter : Nat)
    (id : List Nat) : ∀ n, (kdfAcc md k h letter id n).length =
      (n + 1) * md.outLen := by
  intro n
  induction n with
  | zero => simp [kdfAcc, md.len_eq]
  | succ n ih => simp [kdfAcc, md.len_eq, ih]; ring

theorem kdfAcc_pref (md : HashFn) (k h : List Nat) (letter : Nat)
    (id : List Nat) : ∀ n m, n ≤ m → ∃ t,
      kdfAcc md k h letter id m = kdfAcc md k h letter id n ++ t := by
  intro n m
  induction m with
  | zero =>
      intro hn
      exact ⟨[], by simp [Nat.le_zero.mp hn]⟩
  | succ m ih =>
      intro hn
      rcases Nat.eq_or_lt_of_le hn with heq | hlt
      · exact ⟨[], by simp [heq]⟩
      · obtain ⟨t, ht⟩ := ih (Nat.lt_succ_iff.mp hlt)
        exact ⟨t ++ md.app (k ++ h ++ kdfAcc md k h letter id m),
          by simp [kdfAcc, ht]⟩

theorem kdfAcc_take_eq (md : HashFn) (k h : List Nat) (letter : Nat)
    (id : List Nat) (L n m : Nat)
    (h1 : L ≤ (kdfAcc md k h letter id n).length)
    (h2 : L ≤ (kdfAcc md k h letter id m).length) :
    List.take L (kdfAcc md k h letter id n) =
      List.take L (kdfAcc md k h letter id m) := by
  rcases le_total n m with hnm | hmn
  · obtain ⟨t, ht⟩ := kdfAcc_pref md k h letter id n m hnm
    rw [ht, List.take_append_of_le_length h1]
  · obtain ⟨t, ht⟩ := kdfAcc_pref md k h letter id m n hmn
    rw [ht, List.take_append_of_le_length h2]

theorem kdfExtend_spec (md : HashFn) (k h : List Nat) (letter : Nat)
    (id : List Nat) (L : Nat) :
    ∀ fuel n, L ≤ (kdfAcc md k h letter id n).length + fuel * md.outLen →
      ∃ m, kdfExtend md k h L fuel (kdfAcc md k h letter id n) =
        kdfAcc md k h letter id m ∧ L ≤ (kdfAcc md k h letter id m).length := by
  intro fuel
  induction fuel with
  | zero =>
      intro n hn
      exact ⟨n, rfl, by simpa using hn⟩
  | succ fuel ih =>
      intro n hn
      by_cases hL : L ≤ (kdfAcc md k h letter id n).length
      · exact ⟨n, by simp [kdfExtend, hL], hL⟩
      · have hstep : kdfAcc md k h letter id n ++
            md.app (k ++ h ++ kdfAcc md k h letter id n) =
            kdfAcc md k h letter id (n + 1) := rfl
        have harith : L ≤ (kdfAcc md k h letter id (n + 1)).length +
            fuel * md.outLen := by
          rw [kdfAcc_length] at hn ⊢
          have : (n + 1 + 1) * md.outLen = (n + 1) * md.outLen + md.outLen := by
            ring
          rw [this]
          have hsum : (fuel + 1) * md.outLen = fuel * md.outLen + md.outLen := by
            ring
          omega
        obtain ⟨m, hm, hLm⟩ := ih (n + 1) harith
        refine ⟨m, ?_, hLm⟩
        rw [kdfExtend, if_neg hL, hstep, hm]

theorem set_mac_key_kdf_spec (md : HashFn) (k h : List Nat) (letter : Nat)
    (id : List Nat) (L : Nat) (hpos : 0 < md.outLen) :
    ∃ m, set_mac_key_kdf md k h letter id L = kdfAcc md k h letter id m ∧
      L ≤ (kdfAcc md k h letter id m).length := by
  have h0 : L ≤ (kdfAcc md k h letter id 0).length + L * md.outLen := by
    rw [kdfAcc_length]
    have : L * 1 ≤ L * md.outLen := Nat.mul_le_mul_left L hpos
    omega
  exact kdfExtend_spec md k h letter id L L 0 h0

theorem set_mac_key_kdf_len (md : HashFn) (k h : List Nat) (letter : Nat)
    (id : List Nat) (L : Nat) (hpos : 0 < md.outLen) :
    L ≤ (set_mac_key_kdf md k h letter id L).length := by
  obtain ⟨m, hm, hL⟩ := set_mac_key_kdf_spec md k h letter id L hpos
  rw [hm]
  exact hL

/-- C4: for every digest, secret K, exchange hash H, session id, direction
letter and required length L, the key material `set_mac_key` accumulates
equals the first L bytes of K1 || K2 || ... (each Ki per RFC 4253 section
7.2, blocks appended until the accumulated length is at least L); the
derivation is a pure function of its inputs (deterministic), and a longer
derivation reproduces a shorter derivation's bytes as a prefix. -/
theorem c4_kdf_iterative_extension (md : HashFn) (k h id : List Nat)
    (letter : Nat) (hpos : 0 < md.outLen) :
    (∀ L m, L ≤ (kdfAcc md k h letter id m).length →
        List.take L (set_mac_key_kdf md k h letter id L) =
          List.take L (kdfAcc md k h letter id m)) ∧
    (∀ L1 L2, L1 ≤ L2 →
        List.take L1 (set_mac_key_kdf md k h letter id L1) =
          List.take L1 (List.take L2 (set_mac_key_kdf md k h letter id L2))) := by
  constructor
  · intro L m hm
    obtain ⟨m0, e0, h0⟩ := set_mac_key_kdf_spec md k h letter id L hpos
    rw [e0]
    exact kdfAcc_take_eq md k h letter id L m0 m h0 hm
  · intro L1 L2 h12
    obtain ⟨m2, e2, hl2⟩ := set_mac_key_kdf_spec md k h letter id L2 hpos
    rw [e2, List.take_take, min_eq_left h12]
    obtain ⟨m1, e1, hl1⟩ := set_mac_key_kdf_spec md k h letter id L1 hpos
    rw [e1]
    exact kdfAcc_take_eq md k h letter id L1 m1 m2 hl1 (le_trans h12 hl2)

/-- Witness for C4 at a concrete digest and concrete inputs. -/
theorem c4_kdf_iterative_extension_witness :
    List.take 5 (set_mac_key_kdf tHash [1] [2] 70 [3] 5) =
      List.take 5 (kdfAcc tHash [1] [2] 70 [3] 4) ∧
    List.take 3 (set_mac_key_kdf tHash [1] [2] 70 [3] 3) =
      List.take 3 (List.take 5 (set_mac_key_kdf tHash [1] [2] 70 [3] 5)) :=
  ⟨(c4_kdf_iterative_extension tHash [1] [2] [3] 70 (by decide)).1 5 4
      (by decide),
   (c4_kdf_iterative_extension tHash [1] [2] [3] 70 (by decide)).2 3 5
      (by decide)⟩

/-- C10: for every packet, if no key has been installed for a direction
(the active slot's key is NULL), both `proxy_ssh_mac_write_data` (compute)
and `proxy_ssh_mac_read_data` (verify) succeed with an empty, zero-length
tag and perform no comparison of the received tag. -/
theorem c10_missing_key_empty_tag (P : Prims) (st : MacState) (pkt : Packet) :
    ((sel st.read_mac_idx st.read_macs).key = none →
      proxy_ssh_mac_read_data P st pkt =
        some { pkt with mac := [], mac_len := 0 }) ∧
    ((sel st.write_mac_idx st.write_macs).key = none →
      proxy_ssh_mac_write_data P st pkt =
        some { pkt with mac := [], mac_len := 0 }) := by
  constructor
  · intro h
    simp [proxy_ssh_mac_read_data, h]
  · intro h
    simp [proxy_ssh_mac_write_data, h]

/-- Witness for C10: the freshly initialized session has no keys, and both
paths succeed with the empty tag on a concrete packet carrying a received
tag. -/
theorem c10_missing_key_empty_tag_witness :
    proxy_ssh_mac_read_data tPrims proxy_ssh_mac_init pktLongTag =
      some { pktLongTag with mac := [], mac_len := 0 } ∧
    proxy_ssh_mac_write_data tPrims proxy_ssh_mac_init pktLongTag =
      some { pktLongTag with mac := [], mac_len := 0 } :=
  ⟨(c10_missing_key_empty_tag tPrims proxy_ssh_mac_init pktLongTag).1
      (by decide),
   (c10_missing_key_empty_tag tPrims proxy_ssh_mac_init pktLongTag).2
      (by decide)⟩

/-- C7 (amended): verify performs no length check at all — its outcome is
entirely independent of the received tag's recorded length `mac_len`, and
it compares exactly the computed tag's length bytes of the received
buffer, so a received tag of a different recorded length is not reported
as a mismatch (a longer received tag with a matching prefix is accepted;
a shorter received buffer is read past its end by the C memcmp). -/
theorem c7_verify_ignores_received_len (P : Prims) (st : MacState)
    (pkt : Packet) (L : Nat) :
    proxy_ssh_mac_read_data P st { pkt with mac_len := L } =
      proxy_ssh_mac_read_data P st pkt := by
  cases pkt
  rfl

/-- C7 (counterexample): with a keyed UMAC-64 read generation, a received
tag whose length (9) differs from the computed tag's length (8) is NOT
reported as a MAC mismatch: because its first 8 bytes equal the computed
tag, verify accepts the packet. -/
theorem c7_length_mismatch_accepted :
    pktLongTag.mac_len = 9 ∧ pktLongTag.mac.length = 9 ∧
    proxy_ssh_mac_read_data tPrims stUmacRead pktLongTag =
      some { pktLongTag with mac := List.replicate 8 2, mac_len := 8 } := by
  decide

/-- C1: the claim of a constant-time, full-length tag comparison is false
on the code — get_mac compares with a plain short-circuiting memcmp, whose
byte-comparison count depends on the position of the first differing byte.
Two packets whose received tags both mismatch the computed tag are both
rejected, yet the comparison the code performs inspects 1 byte for a
first-byte mismatch and all 32 bytes for a last-byte mismatch. -/
theorem c1_verify_not_constant_time :
    proxy_ssh_mac_read_data tPrims stHmacRead pktMismFirst = none ∧
    proxy_ssh_mac_read_data tPrims stHmacRead pktMismLast = none ∧
    (memcmpStop
      (List.take 32 (tPrims.hmac sha256_desc (List.replicate 32 5)
          (hmac_buf pktMismFirst).1 ++ List.replicate 32 0))
      (List.take 32 pktMismFirst.mac)).1 = 1 ∧
    (memcmpStop
      (List.take 32 (tPrims.hmac sha256_desc (List.replicate 32 5)
          (hmac_buf pktMismLast).1 ++ List.replicate 32 0))
      (List.take 32 pktMismLast.mac)).1 = 32 := by
  decide

/-- C3: the claim that teardown zeroes all remaining key material is false
on the code — after a session keys its read direction and then tears down
via proxy_ssh_mac_free, the active slot still holds its (non-zero) derived
key bytes, and no key buffer was ever scrubbed or freed. -/
theorem c3_teardown_keys_not_zeroed :
    proxy_ssh_mac_set_read_algo "hmac-sha2-256" proxy_ssh_mac_init ≠ none ∧
    stTornDown.read_macs.1.key ≠ none ∧
    stTornDown.read_macs.1.key.getD [] ≠
      List.replicate (stTornDown.read_macs.1.key.getD []).length 0 ∧
    stTornDown.freed_keys = [] := by
  decide

theorem sel_upd_same (i : Bool) (p : α × α) (x : α) : sel i (upd i p x) = x := by
  cases i <;> rfl

theorem sel_upd_ne (i j : Bool) (p : α × α) (x : α) (h : i ≠ j) :
    sel i (upd j p x) = sel i p := by
  cases i <;> cases j <;> simp_all [sel, upd]

/-- C9 (counterexample): the block size reported by
proxy_ssh_mac_get_block_size is not monotonically non-decreasing across a
session's operations — after a first keying with hmac-sha2-256 it reports
32, and after a rekey to umac-64 (no teardown anywhere) it reports 8;
moreover the retired slot's entry was reset to zero by the rekey switch,
not at teardown. -/
theorem c9_block_size_decreases :
    proxy_ssh_mac_get_block_size stRekeyed1 = 32 ∧
    proxy_ssh_mac_get_block_size stRekeyed2 = 8 ∧
    proxy_ssh_mac_get_block_size stRekeyed2 <
      proxy_ssh_mac_get_block_size stRekeyed1 ∧
    stRekeyed2.mac_blockszs.1 = 0 := by
  decide

/-- C9 (amended): block-size tracking is per generation slot:
proxy_ssh_mac_set_block_size never lowers the reported value (monotone
within one generation), but when a keyed generation is retired by the
rekey switch its slot's entry is reset to zero (so the reported value may
decrease across a rekey), and teardown (proxy_ssh_mac_free) leaves the
block-size array untouched. -/
theorem c9_block_size_per_slot (st : MacState) (b : Nat) :
    proxy_ssh_mac_get_block_size st ≤
      proxy_ssh_mac_get_block_size (proxy_ssh_mac_set_block_size b st) ∧
    ((sel st.read_mac_idx st.read_macs).key ≠ none →
      sel st.read_mac_idx (switch_read_mac st).mac_blockszs = 0) ∧
    (proxy_ssh_mac_free st).mac_blockszs = st.mac_blockszs := by
  refine ⟨?_, ?_, rfl⟩
  · unfold proxy_ssh_mac_set_block_size proxy_ssh_mac_get_block_size
    by_cases hlt : sel st.read_mac_idx st.mac_blockszs < b
    · rw [if_pos hlt]
      simp [sel_upd_same]
      omega
    · rw [if_neg hlt]
  · intro hk
    unfold switch_read_mac
    cases hkey : (sel st.read_mac_idx st.read_macs).key with
    | none => exact absurd hkey hk
    | some kb => simp [hkey, sel_upd_same]

/-- Witness for C9 (amended) at a concrete keyed state. -/
theorem c9_block_size_per_slot_witness :
    proxy_ssh_mac_get_block_size stHmacRead ≤
      proxy_ssh_mac_get_block_size
        (proxy_ssh_mac_set_block_size 7 stHmacRead) ∧
    sel stHmacRead.read_mac_idx (switch_read_mac stHmacRead).mac_blockszs = 0 ∧
    (proxy_ssh_mac_free stHmacRead).mac_blockszs = stHmacRead.mac_blockszs :=
  ⟨(c9_block_size_per_slot stHmacRead 7).1,
   (c9_block_size_per_slot stHmacRead 7).2.1 (by decide),
   (c9_block_size_per_slot stHmacRead 7).2.2⟩

theorem msg_write_int_room (buf : List Nat) (n v : Nat) (h : 4 ≤ n) :
    msg_write_int buf n v = (buf ++ u32be v, n - 4) := by
  simp [msg_write_int, h]

theorem msg_write_byte_room (buf : List Nat) (n v : Nat) (h : 1 ≤ n) :
    msg_write_byte buf n v = (buf ++ [v % 256], n - 1) := by
  simp [msg_write_byte, h]

theorem msg_write_data_room (buf : List Nat) (n : Nat) (d : List Nat)
    (h : d.length ≤ n) :
    msg_write_data buf n d = (buf ++ d, n - d.length) := by
  simp [msg_write_data, h]

/-- With the 64 bytes of slack get_mac allocates, every well-formed packet
(payload and padding sizes covered by packet_len + 63) fits, and the HMAC
authenticated buffer is exactly the concatenation the spec describes. -/
theorem hmac_buf_eq (pkt : Packet)
    (hroom : pkt.payload.length + pkt.padding.length ≤ pkt.packet_len + 63) :
    (hmac_buf pkt).1 = u32be pkt.seqno ++ u32be pkt.packet_len ++
      [pkt.padding_len % 256] ++ pkt.payload ++ pkt.padding := by
  simp (disch := omega) only [hmac_buf, msg_write_int_room,
    msg_write_byte_room, msg_write_data_room]
  simp

/-- The UMAC authenticated buffer is exactly the concatenation the spec
describes: packet_len, padding_len, payload, padding — and no sequence
number. -/
theorem umac_buf_eq (pkt : Packet)
    (hroom : pkt.payload.length + pkt.padding.length ≤ pkt.packet_len + 63) :
    (umac_buf pkt).1 = u32be pkt.packet_len ++ [pkt.padding_len % 256] ++
      pkt.payload ++ pkt.padding := by
  simp (disch := omega) only [umac_buf, msg_write_int_room,
    msg_write_byte_room, msg_write_data_room]
  simp

/-- The UMAC nonce buffer is the 8-byte big-endian sequence number. -/
theorem umac_nonce_eq (v : Nat) :
    (msg_write_long [] 8 v).1 = u64be v := by
  simp [msg_write_long]

/-- C5: for every HMAC-family generation (keyed slot, keyed HMAC context)
and every well-formed packet, the computed tag is the keyed hash of
exactly `seqno(4,BE) || packet_len(4) || padding_len(1) || payload ||
padding`, truncated to the slot's effective mac length when a truncated
length applies (and to the digest's native size otherwise). -/
theorem c5_hmac_tag_wire_format (P : Prims) (st : MacState) (pkt : Packet)
    (ck : List Nat) (d : DigestDesc)
    (hty : (sel st.write_mac_idx st.write_macs).algo_type = 1)
    (hkey : (sel st.write_mac_idx st.write_macs).key ≠ none)
    (hctx : sel st.write_mac_idx st.hmac_write_ctxs = some (some (ck, d)))
    (hpos : 0 < d.mdSize)
    (htr : (sel st.write_mac_idx st.write_macs).mac_len ≤ d.mdSize)
    (hroom : pkt.payload.length + pkt.padding.length ≤ pkt.packet_len + 63) :
    proxy_ssh_mac_write_data P st pkt =
      some { pkt with
        mac := List.take
          (if (sel st.write_mac_idx st.write_macs).mac_len ≠ 0
            then (sel st.write_mac_idx st.write_macs).mac_len else d.mdSize)
          (P.hmac d ck (u32be pkt.seqno ++ u32be pkt.packet_len ++
            [pkt.padding_len % 256] ++ pkt.payload ++ pkt.padding)),
        mac_len := if (sel st.write_mac_idx st.write_macs).mac_len ≠ 0
            then (sel st.write_mac_idx st.write_macs).mac_len else d.mdSize } := by
  have hlen := P.hmac_len d ck (hmac_buf pkt).1
  have hbuf := hmac_buf_eq pkt hroom
  have hne : d.mdSize ≠ 0 := Nat.pos_iff_ne_zero.mp hpos
  have hnil : P.hmac d ck (hmac_buf pkt).1 ≠ [] := by
    intro hcon
    rw [hcon] at hlen
    exact hne hlen.symm
  rw [← hbuf]
  by_cases hmz : (sel st.write_mac_idx st.write_macs).mac_len = 0
  · simp only [proxy_ssh_mac_write_data, get_mac, hty, hctx, hkey, hmz,
      hlen, hne, hnil, Option.getD_some, if_false, ite_false, ne_eq,
      not_true_eq_false, not_false_eq_true, ite_true, if_true,
      List.length_eq_zero]
    rw [List.take_append_of_le_length (by omega), ← hlen, List.take_length]
    simp
  · simp only [proxy_ssh_mac_write_data, get_mac, hty, hctx, hkey, hmz,
      hlen, hne, hnil, Option.getD_some, if_false, ite_false, ne_eq,
      not_true_eq_false, not_false_eq_true, ite_true, if_true,
      List.length_eq_zero]
    rw [List.take_append_of_le_length (by omega)]
    simp

/-- Witness for C5 at a concrete keyed HMAC-SHA2-256 write state and a
concrete packet. -/
theorem c5_hmac_tag_wire_format_witness :
    proxy_ssh_mac_write_data tPrims stHmacWrite pktBase =
      some { pktBase with
        mac := List.take
          (if (sel stHmacWrite.write_mac_idx stHmacWrite.write_macs).mac_len ≠ 0
            then (sel stHmacWrite.write_mac_idx stHmacWrite.write_macs).mac_len
            else sha256_desc.mdSize)
          (tPrims.hmac sha256_desc (List.replicate 32 5)
            (u32be pktBase.seqno ++ u32be pktBase.packet_len ++
              [pktBase.padding_len % 256] ++ pktBase.payload ++
              pktBase.padding)),
        mac_len :=
          if (sel stHmacWrite.write_mac_idx stHmacWrite.write_macs).mac_len ≠ 0
            then (sel stHmacWrite.write_mac_idx stHmacWrite.write_macs).mac_len
            else sha256_desc.mdSize } :=
  c5_hmac_tag_wire_format tPrims stHmacWrite pktBase (List.replicate 32 5)
    sha256_desc (by decide) (by decide) (by decide) (by decide) (by decide)
    (by decide)

/-- C6: the catalog attaches no truncation to the UMAC identifiers, and
for every UMAC-64 / UMAC-128 generation and well-formed packet the
authenticated buffer is `packet_len(4) || padding_len(1) || payload ||
padding` (no sequence number in it), the sequence number is passed as the
8-byte big-endian nonce, and the tag is the primitive's full output —
exactly 8 bytes (UMAC-64) or exactly 16 bytes (UMAC-128). -/
theorem c6_umac_tag_wire_format (P : Prims) :
    proxy_ssh_crypto_get_digest "umac-64@openssh.com" =
      some (umac64_desc, 0) ∧
    proxy_ssh_crypto_get_digest "umac-128@openssh.com" =
      some (umac128_desc, 0) ∧
    (∀ st pkt uk,
      (sel st.write_mac_idx st.write_macs).algo_type = 2 →
      (sel st.write_mac_idx st.write_macs).mac_len = 0 →
      (sel st.write_mac_idx st.write_macs).key ≠ none →
      sel st.write_mac_idx st.umac_write_ctxs = some (some uk) →
      pkt.payload.length + pkt.padding.length ≤ pkt.packet_len + 63 →
      proxy_ssh_mac_write_data P st pkt =
        some { pkt with
          mac := P.umac64 uk (u32be pkt.packet_len ++
            [pkt.padding_len % 256] ++ pkt.payload ++ pkt.padding)
            (u64be pkt.seqno),
          mac_len := 8 } ∧
      (P.umac64 uk (u32be pkt.packet_len ++ [pkt.padding_len % 256] ++
        pkt.payload ++ pkt.padding) (u64be pkt.seqno)).length = 8) ∧
    (∀ st pkt uk,
      (sel st.write_mac_idx st.write_macs).algo_type = 3 →
      (sel st.write_mac_idx st.write_macs).mac_len = 0 →
      (sel st.write_mac_idx st.write_macs).key ≠ none →
      sel st.write_mac_idx st.umac_write_ctxs = some (some uk) →
      pkt.payload.length + pkt.padding.length ≤ pkt.packet_len + 63 →
      proxy_ssh_mac_write_data P st pkt =
        some { pkt with
          mac := P.umac128 uk (u32be pkt.packet_len ++
            [pkt.padding_len % 256] ++ pkt.payload ++ pkt.padding)
            (u64be pkt.seqno),
          mac_len := 16 } ∧
      (P.umac128 uk (u32be pkt.packet_len ++ [pkt.padding_len % 256] ++
        pkt.payload ++ pkt.padding) (u64be pkt.seqno)).length = 16) := by
  refine ⟨rfl, rfl, ?_, ?_⟩
  · intro st pkt uk hty hmz hkey hctx hroom
    have hlen := P.umac64_len uk (umac_buf pkt).1
      (msg_write_long [] 8 pkt.seqno).1
    have hbuf := umac_buf_eq pkt hroom
    rw [← hbuf, ← umac_nonce_eq pkt.seqno]
    refine ⟨?_, hlen⟩
    have htake : List.take 8 (P.umac64 uk (umac_buf pkt).1
        (msg_write_long [] 8 pkt.seqno).1 ++
        List.replicate (evpMaxMdSize - (P.umac64 uk (umac_buf pkt).1
          (msg_write_long [] 8 pkt.seqno).1).length) 0) =
        P.umac64 uk (umac_buf pkt).1 (msg_write_long [] 8 pkt.seqno).1 := by
      rw [List.take_append_of_le_length (by omega),
        List.take_of_length_le (by omega)]
    simp [proxy_ssh_mac_write_data, get_mac, hty, hmz, hkey, hctx, htake]
  · intro st pkt uk hty hmz hkey hctx hroom
    have hlen := P.umac128_len uk (umac_buf pkt).1
      (msg_write_long [] 8 pkt.seqno).1
    have hbuf := umac_buf_eq pkt hroom
    rw [← hbuf, ← umac_nonce_eq pkt.seqno]
    refine ⟨?_, hlen⟩
    have htake : List.take 16 (P.umac128 uk (umac_buf pkt).1
        (msg_write_long [] 8 pkt.seqno).1 ++
        List.replicate (evpMaxMdSize - (P.umac128 uk (umac_buf pkt).1
          (msg_write_long [] 8 pkt.seqno).1).length) 0) =
        P.umac128 uk (umac_buf pkt).1 (msg_write_long [] 8 pkt.seqno).1 := by
      rw [List.take_append_of_le_length (by omega),
        List.take_of_length_le (by omega)]
    simp [proxy_ssh_mac_write_data, get_mac, hty, hmz, hkey, hctx, htake]

/-- Witness for C6 at concrete keyed UMAC-64 and UMAC-128 write states. -/
theorem c6_umac_tag_wire_format_witness :
    (proxy_ssh_mac_write_data tPrims stUmacWrite pktBase =
      some { pktBase with
        mac := tPrims.umac64 (List.replicate 16 4)
          (u32be pktBase.packet_len ++ [pktBase.padding_len % 256] ++
            pktBase.payload ++ pktBase.padding) (u64be pktBase.seqno),
        mac_len := 8 } ∧
      (tPrims.umac64 (List.replicate 16 4)
        (u32be pktBase.packet_len ++ [pktBase.padding_len % 256] ++
          pktBase.payload ++ pktBase.padding)
        (u64be pktBase.seqno)).length = 8) ∧
    (proxy_ssh_mac_write_data tPrims stUmac128Write pktBase =
      some { pktBase with
        mac := tPrims.umac128 (List.replicate 16 4)
          (u32be pktBase.packet_len ++ [pktBase.padding_len % 256] ++
            pktBase.payload ++ pktBase.padding) (u64be pktBase.seqno),
        mac_len := 16 } ∧
      (tPrims.umac128 (List.replicate 16 4)
        (u32be pktBase.packet_len ++ [pktBase.padding_len % 256] ++
          pktBase.payload ++ pktBase.padding)
        (u64be pktBase.seqno)).length = 16) :=
  ⟨(c6_umac_tag_wire_format tPrims).2.2.1 stUmacWrite pktBase
      (List.replicate 16 4) (by decide) (by decide) (by decide) (by decide)
      (by decide),
   (c6_umac_tag_wire_format tPrims).2.2.2 stUmac128Write pktBase
      (List.replicate 16 4) (by decide) (by decide) (by decide) (by decide)
      (by decide)⟩

/-- C8: set_read_algo during a pending rekey (active slot keyed) leaves
both slots' key material and the active index unchanged, and the verify
path is untouched: read_data gives the same result on every packet before
and after the call. -/
theorem c8_set_algo_preserves_active (algo : String) (st st2 : MacState)
    (hkey : (sel st.read_mac_idx st.read_macs).key ≠ none)
    (hset : proxy_ssh_mac_set_read_algo algo st = some st2) :
    st2.read_macs.1.key = st.read_macs.1.key ∧
    st2.read_macs.2.key = st.read_macs.2.key ∧
    st2.read_mac_idx = st.read_mac_idx ∧
    ∀ P pkt, proxy_ssh_mac_read_data P st2 pkt =
      proxy_ssh_mac_read_data P st pkt := by
  cases hdig : proxy_ssh_crypto_get_digest algo with
  | none =>
      unfold proxy_ssh_mac_set_read_algo at hset
      rw [hdig] at hset
      simp at hset
  | some dm =>
      unfold proxy_ssh_mac_set_read_algo at hset
      rw [hdig] at hset
      simp only [hkey, ne_eq, not_false_eq_true, if_true, ite_true,
        Option.some.injEq] at hset
      subst hset
      cases hb : st.read_mac_idx <;>
        simp only [hb, Bool.not_false, Bool.not_true] <;>
        split_ifs <;>
        simp [hb, sel, upd, proxy_ssh_mac_read_data]

/-- Witness for C8 on a concrete rekey-in-flight state: after the first
keying, preparing umac-64 in the inactive slot changes neither the keys,
nor the active index, nor the verify outcome. -/
theorem c8_set_algo_preserves_active_witness :
    stRPrepared.read_macs.1.key = stRekeyed1.read_macs.1.key ∧
    stRPrepared.read_macs.2.key = stRekeyed1.read_macs.2.key ∧
    stRPrepared.read_mac_idx = stRekeyed1.read_mac_idx ∧
    proxy_ssh_mac_read_data tPrims stRPrepared pktBase =
      proxy_ssh_mac_read_data tPrims stRekeyed1 pktBase := by
  obtain ⟨h1, h2, h3, h4⟩ := c8_set_algo_preserves_active
    "umac-64@openssh.com" stRekeyed1 stRPrepared (by decide) (by decide)
  exact ⟨h1, h2, h3, h4 tPrims pktBase⟩

theorem pr_memscrub_all (b : List Nat) (n : Nat) (h : b.length ≤ n) :
    pr_memscrub b n = List.replicate b.length 0 := by
  unfold pr_memscrub
  rw [min_eq_right h, List.drop_eq_nil_of_le h, List.append_nil]

theorem clear_mac_keyed (m : ProxySshMac) (kb : List Nat)
    (h : m.key = some kb) :
    clear_mac m =
      ({ m with key := none, keysz := 0, key_len := 0, digest := none,
                algo := none },
       [pr_memscrub kb m.keysz]) := by
  simp [clear_mac, h]

theorem switch_write_mac_keyed (st : MacState) (kb : List Nat)
    (h : (sel st.write_mac_idx st.write_macs).key = some kb) :
    switch_write_mac st = { st with
      write_macs := upd st.write_mac_idx st.write_macs
        (clear_mac (sel st.write_mac_idx st.write_macs)).1,
      freed_keys := st.freed_keys ++
        (clear_mac (sel st.write_mac_idx st.write_macs)).2,
      hmac_write_ctxs := upd st.write_mac_idx st.hmac_write_ctxs (some none),
      umac_write_ctxs :=
        if (sel st.write_mac_idx st.write_macs).algo_type = 2 ∨
            (sel st.write_mac_idx st.write_macs).algo_type = 3 then
          upd st.write_mac_idx st.umac_write_ctxs
            ((sel st.write_mac_idx st.umac_write_ctxs).map (fun _ => none))
        else st.umac_write_ctxs,
      write_mac_idx := !st.write_mac_idx } := by
  simp [switch_write_mac, h]

theorem switch_read_mac_keyed (st : MacState) (kb : List Nat)
    (h : (sel st.read_mac_idx st.read_macs).key = some kb) :
    switch_read_mac st = { st with
      read_macs := upd st.read_mac_idx st.read_macs
        (clear_mac (sel st.read_mac_idx st.read_macs)).1,
      freed_keys := st.freed_keys ++
        (clear_mac (sel st.read_mac_idx st.read_macs)).2,
      hmac_read_ctxs := upd st.read_mac_idx st.hmac_read_ctxs (some none),
      umac_read_ctxs :=
        if (sel st.read_mac_idx st.read_macs).algo_type = 2 ∨
            (sel st.read_mac_idx st.read_macs).algo_type = 3 then
          upd st.read_mac_idx st.umac_read_ctxs
            ((sel st.read_mac_idx st.umac_read_ctxs).map (fun _ => none))
        else st.umac_read_ctxs,
      mac_blockszs := upd st.read_mac_idx st.mac_blockszs 0,
      read_mac_idx := !st.read_mac_idx } := by
  simp [switch_read_mac, h]

theorem set_mac_key_keyed (md : HashFn) (k h : List Nat) (letter : Nat)
    (id : List Nat) (sup : Bool) (m : ProxySshMac) (d : DigestDesc)
    (hd : m.digest = some d) (hpos : 0 < md.outLen) :
    set_mac_key md k h letter id sup m = { m with
      key := some (List.take (max d.blockSize md.outLen)
        (set_mac_key_kdf md k h letter id (max d.blockSize md.outLen))),
      keysz := max d.blockSize md.outLen,
      key_len :=
        if sup then
          (if m.algo_type = 1 then d.mdSize
           else if m.algo_type = 2 ∨ m.algo_type = 3 then d.blockSize
           else m.key_len)
        else 16 } := by
  simp [set_mac_key, hd, proxy_ssh_crypto_get_size,
    Nat.pos_iff_ne_zero.mp hpos]

theorem set_block_size_fields (b : Nat) (st : MacState) :
    (proxy_ssh_mac_set_block_size b st).read_macs = st.read_macs ∧
    (proxy_ssh_mac_set_block_size b st).read_mac_idx = st.read_mac_idx ∧
    (proxy_ssh_mac_set_block_size b st).hmac_read_ctxs = st.hmac_read_ctxs ∧
    (proxy_ssh_mac_set_block_size b st).umac_read_ctxs = st.umac_read_ctxs ∧
    (proxy_ssh_mac_set_block_size b st).freed_keys = st.freed_keys := by
  unfold proxy_ssh_mac_set_block_size
  split_ifs <;> simp

theorem set_write_algo_rekey_facts (algo : String) (st st3 : MacState)
    (dm : DigestDesc × Nat)
    (hkey : (sel st.write_mac_idx st.write_macs).key ≠ none)
    (hdig : proxy_ssh_crypto_get_digest algo = some dm)
    (hset : proxy_ssh_mac_set_write_algo algo st = some st3) :
    st3.write_mac_idx = st.write_mac_idx ∧
    sel st.write_mac_idx st3.write_macs = sel st.write_mac_idx st.write_macs ∧
    (sel (!st.write_mac_idx) st3.write_macs).algo = some algo ∧
    (sel (!st.write_mac_idx) st3.write_macs).digest = some dm.1 ∧
    st3.hmac_write_ctxs = st.hmac_write_ctxs ∧
    st3.freed_keys = st.freed_keys := by
  unfold proxy_ssh_mac_set_write_algo at hset
  rw [hdig] at hset
  simp only [hkey, ne_eq, not_false_eq_true, if_true, ite_true,
    Option.some.injEq] at hset
  subst hset
  cases hb : st.write_mac_idx <;>
    simp only [hb, Bool.not_false, Bool.not_true] <;>
    split_ifs <;>
    simp [hb, sel, upd]

theorem set_read_algo_rekey_facts (algo : String) (st st3 : MacState)
    (dm : DigestDesc × Nat)
    (hkey : (sel st.read_mac_idx st.read_macs).key ≠ none)
    (hdig : proxy_ssh_crypto_get_digest algo = some dm)
    (hset : proxy_ssh_mac_set_read_algo algo st = some st3) :
    st3.read_mac_idx = st.read_mac_idx ∧
    sel st.read_mac_idx st3.read_macs = sel st.read_mac_idx st.read_macs ∧
    (sel (!st.read_mac_idx) st3.read_macs).algo = some algo ∧
    (sel (!st.read_mac_idx) st3.read_macs).digest = some dm.1 ∧
    st3.hmac_read_ctxs = st.hmac_read_ctxs ∧
    st3.freed_keys = st.freed_keys := by
  unfold proxy_ssh_mac_set_read_algo at hset
  rw [hdig] at hset
  simp only [hkey, ne_eq, not_false_eq_true, if_true, ite_true,
    Option.some.injEq] at hset
  subst hset
  cases hb : st.read_mac_idx <;>
    simp only [hb, Bool.not_false, Bool.not_true] <;>
    split_ifs <;>
    simp [hb, sel, upd]

theorem c2_write_rekey_aux (algoB : String) (dB : DigestDesc) (lB : Nat)
    (md2 : HashFn) (k2 e2 id : List Nat) (role : SshRole) (sup : Bool)
    (st st3 : MacState) (kb : List Nat)
    (hkb : (sel st.write_mac_idx st.write_macs).key = some kb)
    (hsc : kb.length ≤ (sel st.write_mac_idx st.write_macs).keysz)
    (hfreed : ∀ b ∈ st.freed_keys, b = List.replicate b.length 0)
    (hB : proxy_ssh_crypto_get_digest algoB = some (dB, lB))
    (hset : proxy_ssh_mac_set_write_algo algoB st = some st3)
    (hm2 : 0 < md2.outLen) :
    ∀ st4, proxy_ssh_mac_set_write_key md2 k2 e2 id role sup st3 = st4 →
      st4.write_mac_idx = !st.write_mac_idx ∧
      (sel st.write_mac_idx st4.write_macs).key = none ∧
      (sel st.write_mac_idx st4.write_macs).algo = none ∧
      (∀ b ∈ st4.freed_keys, b = List.replicate b.length 0) ∧
      (sel (!st.write_mac_idx) st4.write_macs).algo = some algoB ∧
      (sel (!st.write_mac_idx) st4.write_macs).key =
        some (List.take (max dB.blockSize md2.outLen)
          (set_mac_key_kdf md2 k2 e2
            (if role = SshRole.client then 69 else 70) id
            (max dB.blockSize md2.outLen))) ∧
      sel st.write_mac_idx st4.hmac_write_ctxs = some none ∧
      ∀ P pkt, proxy_ssh_mac_write_data P st4 pkt =
        get_mac P (sel (!st.write_mac_idx) st4.write_macs)
          ((sel (!st.write_mac_idx) st4.hmac_write_ctxs).getD none)
          (sel (!st.write_mac_idx) st4.umac_write_ctxs) pkt false := by
  intro st4 hst4
  have hkey : (sel st.write_mac_idx st.write_macs).key ≠ none := by
    rw [hkb]
    exact Option.some_ne_none kb
  obtain ⟨f1, f2, f3, f4, f5, f6⟩ :=
    set_write_algo_rekey_facts algoB st st3 (dB, lB) hkey hB hset
  have hk3 : (sel st3.write_mac_idx st3.write_macs).key = some kb := by
    rw [f1, f2, hkb]
  have hsw := switch_write_mac_keyed st3 kb hk3
  have hcl := clear_mac_keyed (sel st3.write_mac_idx st3.write_macs) kb hk3
  have hm := set_mac_key_keyed md2 k2 e2
    (if role = SshRole.client then (69 : Nat) else 70) id sup
    (sel (!st.write_mac_idx) st3.write_macs) dB f4 hm2
  subst hst4
  rw [f1] at hsw hcl
  have hfr : ∀ b, b ∈ st.freed_keys ++
      [pr_memscrub kb (sel st.write_mac_idx st.write_macs).keysz] →
      b = List.replicate b.length 0 := by
    intro b hbm
    rcases List.mem_append.mp hbm with hl | hr
    · exact hfreed b hl
    · rw [List.mem_singleton] at hr
      subst hr
      rw [pr_memscrub_all kb _ hsc]
      simp
  unfold proxy_ssh_mac_set_write_key
  rw [hsw]
  cases hb : st.write_mac_idx <;>
  · simp only [hb] at hcl hm f2 f3 f4 hfr ⊢
    simp only [sel, upd] at hcl hm f2 f3 f4 hfr ⊢
    simp at hcl hm f2 f3 f4
    refine ⟨by simp, by simp [hcl], by simp [hcl], ?_,
      by simp [hm, f3], by simp [hm], by simp, ?_⟩
    · rw [f2] at hcl
      simp [hb, sel] at hsc
      simp [f6, f2, hcl]
      intro b hbm
      rcases hbm with hl | hr
      · exact hfreed b hl
      · subst hr
        rw [pr_memscrub_all kb _ hsc]
        simp
    · intro P pkt
      simp [proxy_ssh_mac_write_data, sel, upd, hm]

theorem c2_read_rekey_aux (algoB : String) (dB : DigestDesc) (lB : Nat)
    (md2 : HashFn) (k2 e2 id : List Nat) (role : SshRole) (sup : Bool)
    (st st3 : MacState) (kb : List Nat)
    (hkb : (sel st.read_mac_idx st.read_macs).key = some kb)
    (hsc : kb.length ≤ (sel st.read_mac_idx st.read_macs).keysz)
    (hfreed : ∀ b ∈ st.freed_keys, b = List.replicate b.length 0)
    (hB : proxy_ssh_crypto_get_digest algoB = some (dB, lB))
    (hset : proxy_ssh_mac_set_read_algo algoB st = some st3)
    (hm2 : 0 < md2.outLen) :
    ∀ st4, proxy_ssh_mac_set_read_key md2 k2 e2 id role sup st3 = st4 →
      st4.read_mac_idx = !st.read_mac_idx ∧
      (sel st.read_mac_idx st4.read_macs).key = none ∧
      (sel st.read_mac_idx st4.read_macs).algo = none ∧
      (∀ b ∈ st4.freed_keys, b = List.replicate b.length 0) ∧
      (sel (!st.read_mac_idx) st4.read_macs).algo = some algoB ∧
      (sel (!st.read_mac_idx) st4.read_macs).key =
        some (List.take (max dB.blockSize md2.outLen)
          (set_mac_key_kdf md2 k2 e2
            (if role = SshRole.client then 70 else 69) id
            (max dB.blockSize md2.outLen))) ∧
      sel st.read_mac_idx st4.hmac_read_ctxs = some none ∧
      ∀ P pkt, proxy_ssh_mac_read_data P st4 pkt =
        get_mac P (sel (!st.read_mac_idx) st4.read_macs)
          ((sel (!st.read_mac_idx) st4.hmac_read_ctxs).getD none)
          (sel (!st.read_mac_idx) st4.umac_read_ctxs) pkt true := by
  intro st4 hst4
  have hkey : (sel st.read_mac_idx st.read_macs).key ≠ none := by
    rw [hkb]
    exact Option.some_ne_none kb
  obtain ⟨f1, f2, f3, f4, f5, f6⟩ :=
    set_read_algo_rekey_facts algoB st st3 (dB, lB) hkey hB hset
  have hk3 : (sel st3.read_mac_idx st3.read_macs).key = some kb := by
    rw [f1, f2, hkb]
  have hsw := switch_read_mac_keyed st3 kb hk3
  have hcl := clear_mac_keyed (sel st3.read_mac_idx st3.read_macs) kb hk3
  have hm := set_mac_key_keyed md2 k2 e2
    (if role = SshRole.client then (70 : Nat) else 69) id sup
    (sel (!st.read_mac_idx) st3.read_macs) dB f4 hm2
  subst hst4
  rw [f1] at hsw hcl
  unfold proxy_ssh_mac_set_read_key
  rw [hsw]
  cases hb : st.read_mac_idx <;>
  · simp only [hb] at hcl hm f2 f3 f4 ⊢
    simp only [sel, upd] at hcl hm f2 f3 f4 ⊢
    simp at hcl hm f2 f3 f4
    refine ⟨by simp [set_block_size_fields], by simp [set_block_size_fields, hcl],
      by simp [set_block_size_fields, hcl], ?_,
      by simp [set_block_size_fields, hm, f3],
      by simp [set_block_size_fields, hm],
      by simp [set_block_size_fields], ?_⟩
    · rw [f2] at hcl
      simp [hb, sel] at hsc
      simp [set_block_size_fields, f6, f2, hcl]
      intro b hbm
      rcases hbm with hl | hr
      · exact hfreed b hl
      · subst hr
        rw [pr_memscrub_all kb _ hsc]
        simp
    · intro P pkt
      simp [proxy_ssh_mac_read_data, sel, upd, hm, set_block_size_fields]

/-- C2: for every direction, after a second set_algorithm + set_key
sequence completes while a previous generation is active (a rekey), the
previously active slot is retired — its key freed with the buffer zeroed
beforehand (every entry of the ghost freed-buffer log is all-zero) and its
key and algorithm cleared — the active index flips to the newly keyed
slot, which holds the new algorithm's name and the key derived from the
new parameters, and a compute (write) or verify (read) issued immediately
afterwards consults exactly the new generation's slot and contexts. -/
theorem c2_rekey_generation_switch :
    (∀ algoB dB lB (md2 : HashFn) k2 e2 id role sup st st3 kb,
      (sel st.write_mac_idx st.write_macs).key = some kb →
      kb.length ≤ (sel st.write_mac_idx st.write_macs).keysz →
      (∀ b ∈ st.freed_keys, b = List.replicate b.length 0) →
      proxy_ssh_crypto_get_digest algoB = some (dB, lB) →
      proxy_ssh_mac_set_write_algo algoB st = some st3 →
      0 < md2.outLen →
      ∀ st4, proxy_ssh_mac_set_write_key md2 k2 e2 id role sup st3 = st4 →
        st4.write_mac_idx = !st.write_mac_idx ∧
        (sel st.write_mac_idx st4.write_macs).key = none ∧
        (sel st.write_mac_idx st4.write_macs).algo = none ∧
        (∀ b ∈ st4.freed_keys, b = List.replicate b.length 0) ∧
        (sel (!st.write_mac_idx) st4.write_macs).algo = some algoB ∧
        (sel (!st.write_mac_idx) st4.write_macs).key =
          some (List.take (max dB.blockSize md2.outLen)
            (set_mac_key_kdf md2 k2 e2
              (if role = SshRole.client then 69 else 70) id
              (max dB.blockSize md2.outLen))) ∧
        sel st.write_mac_idx st4.hmac_write_ctxs = some none ∧
        ∀ P pkt, proxy_ssh_mac_write_data P st4 pkt =
          get_mac P (sel (!st.write_mac_idx) st4.write_macs)
            ((sel (!st.write_mac_idx) st4.hmac_write_ctxs).getD none)
            (sel (!st.write_mac_idx) st4.umac_write_ctxs) pkt false) ∧
    (∀ algoB dB lB (md2 : HashFn) k2 e2 id role sup st st3 kb,
      (sel st.read_mac_idx st.read_macs).key = some kb →
      kb.length ≤ (sel st.read_mac_idx st.read_macs).keysz →
      (∀ b ∈ st.freed_keys, b = List.replicate b.length 0) →
      proxy_ssh_crypto_get_digest algoB = some (dB, lB) →
      proxy_ssh_mac_set_read_algo algoB st = some st3 →
      0 < md2.outLen →
      ∀ st4, proxy_ssh_mac_set_read_key md2 k2 e2 id role sup st3 = st4 →
        st4.read_mac_idx = !st.read_mac_idx ∧
        (sel st.read_mac_idx st4.read_macs).key = none ∧
        (sel st.read_mac_idx st4.read_macs).algo = none ∧
        (∀ b ∈ st4.freed_keys, b = List.replicate b.length 0) ∧
        (sel (!st.read_mac_idx) st4.read_macs).algo = some algoB ∧
        (sel (!st.read_mac_idx) st4.read_macs).key =
          some (List.take (max dB.blockSize md2.outLen)
            (set_mac_key_kdf md2 k2 e2
              (if role = SshRole.client then 70 else 69) id
              (max dB.blockSize md2.outLen))) ∧
        sel st.read_mac_idx st4.hmac_read_ctxs = some none ∧
        ∀ P pkt, proxy_ssh_mac_read_data P st4 pkt =
          get_mac P (sel (!st.read_mac_idx) st4.read_macs)
            ((sel (!st.read_mac_idx) st4.hmac_read_ctxs).getD none)
            (sel (!st.read_mac_idx) st4.umac_read_ctxs) pkt true) :=
  ⟨fun algoB dB lB md2 k2 e2 id role sup st st3 kb hkb hsc hfreed hB hset
      hm2 =>
    c2_write_rekey_aux algoB dB lB md2 k2 e2 id role sup st st3 kb hkb hsc
      hfreed hB hset hm2,
   fun algoB dB lB md2 k2 e2 id role sup st st3 kb hkb hsc hfreed hB hset
      hm2 =>
    c2_read_rekey_aux algoB dB lB md2 k2 e2 id role sup st st3 kb hkb hsc
      hfreed hB hset hm2⟩

/-- Witness for C2: the concrete rekey runs (hmac-sha2-256 to umac-64) in
each direction. -/
theorem c2_rekey_generation_switch_witness :
    (stWRekeyed2.write_mac_idx = !stWKeyed1.write_mac_idx ∧
     (sel stWKeyed1.write_mac_idx stWRekeyed2.write_macs).key = none ∧
     (∀ b ∈ stWRekeyed2.freed_keys, b = List.replicate b.length 0) ∧
     (sel (!stWKeyed1.write_mac_idx) stWRekeyed2.write_macs).algo =
       some "umac-64@openssh.com" ∧
     proxy_ssh_mac_write_data tPrims stWRekeyed2 pktBase =
       get_mac tPrims
         (sel (!stWKeyed1.write_mac_idx) stWRekeyed2.write_macs)
         ((sel (!stWKeyed1.write_mac_idx) stWRekeyed2.hmac_write_ctxs).getD
           none)
         (sel (!stWKeyed1.write_mac_idx) stWRekeyed2.umac_write_ctxs)
         pktBase false) ∧
    (stRekeyed2.read_mac_idx = !stRekeyed1.read_mac_idx ∧
     (sel stRekeyed1.read_mac_idx stRekeyed2.read_macs).key = none ∧
     (∀ b ∈ stRekeyed2.freed_keys, b = List.replicate b.length 0) ∧
     (sel (!stRekeyed1.read_mac_idx) stRekeyed2.read_macs).algo =
       some "umac-64@openssh.com" ∧
     proxy_ssh_mac_read_data tPrims stRekeyed2 pktBase =
       get_mac tPrims
         (sel (!stRekeyed1.read_mac_idx) stRekeyed2.read_macs)
         ((sel (!stRekeyed1.read_mac_idx) stRekeyed2.hmac_read_ctxs).getD
           none)
         (sel (!stRekeyed1.read_mac_idx) stRekeyed2.umac_read_ctxs)
         pktBase true) := by
  obtain ⟨w1, w2, w3, w4, w5, w6, w7, w8⟩ :=
    c2_rekey_generation_switch.1 "umac-64@openssh.com" umac64_desc 0 tHash2
      [8] [9] [7] SshRole.client true stWKeyed1 stWPrepared wKey1
      (by decide) (by decide) (by decide) (by decide) (by decide) (by decide)
      stWRekeyed2 (by decide)
  obtain ⟨r1, r2, r3, r4, r5, r6, r7, r8⟩ :=
    c2_rekey_generation_switch.2 "umac-64@openssh.com" umac64_desc 0 tHash2
      [8] [9] [7] SshRole.client true stRekeyed1 stRPrepared rKey1
      (by decide) (by decide) (by decide) (by decide) (by decide) (by decide)
      stRekeyed2 (by decide)
  exact ⟨⟨w1, w2, w4, w5, w8 tPrims pktBase⟩,
    ⟨r1, r2, r4, r5, r8 tPrims pktBase⟩⟩
